import Mathlib

/-!
Shallow embedding of the StockBrain/DesertBrain core (Django app) for the
verification of its specification: the work-log aggregate (numbering,
edit-eligibility, entry replacement, entry state machine, scheduled e-mail
dispatch) and the inventory query engine fragments (unit filter, name sort,
for-reorder flag).  Sources embedded: `engine/worklog/models.py`,
`engine/worklog/email_utils.py`, `engine/inventory/models.py`,
`engine/inventory/views.py`.
-/

namespace StockBrain

/-! ## Python string primitives (ASCII semantics)

The Django code uses `str.strip`, `str.title`, `str.replace`, `str.upper`,
`str.lower`.  These are re-implemented here at the character-list level so
that every definition reduces inside the kernel. -/

/-- Python `str.strip()`: drop leading and trailing whitespace. -/
def pyStrip (s : String) : String :=
  ⟨((s.data.dropWhile Char.isWhitespace).reverse.dropWhile Char.isWhitespace).reverse⟩

/-- Helper for `pyTitle`: the boolean records whether the previous character
was alphabetic (Python title-cases a letter that follows a non-letter). -/
def pyTitleAux : Bool → List Char → List Char
  | _, [] => []
  | prevAlpha, c :: cs =>
    (if c.isAlpha then (if prevAlpha then c.toLower else c.toUpper) else c)
      :: pyTitleAux c.isAlpha cs

/-- Python `str.title()` (ASCII): each letter that follows a non-letter is
upper-cased, every other letter is lower-cased. -/
def pyTitle (s : String) : String := ⟨pyTitleAux false s.data⟩

/-- Python `s.replace(" ", "")`. -/
def removeSpaces (s : String) : String := ⟨s.data.filter (fun c => c ≠ ' ')⟩

/-- Python `s.replace(" ", "_")`. -/
def spacesToUnderscores (s : String) : String :=
  ⟨s.data.map (fun c => if c = ' ' then '_' else c)⟩

/-- Python `str.upper()` (ASCII). -/
def upperStr (s : String) : String := ⟨s.data.map Char.toUpper⟩

/-- Python `str.lower()` / SQL `LOWER` (ASCII). -/
def lowerStr (s : String) : String := ⟨s.data.map Char.toLower⟩

/-- Django `__iexact`: case-insensitive equality (ASCII). -/
def iexact (a b : String) : Bool := upperStr a = upperStr b

/-! ## Dates and instants

A civil date is a (year, month, day) triple; an instant is an integer count
of seconds on the fixed Kuwait timeline (the code pins everything to the
single `Asia/Kuwait` zone, so local naive arithmetic is linear).  A time of
day is a second count in `[0, 86400)`. -/

structure Date where
  year : Nat
  month : Nat
  day : Nat
deriving DecidableEq, Repr

/-- Two-digit zero-padded decimal rendering, as in `strftime` fields. -/
def pad2 (n : Nat) : String := if n < 10 then "0" ++ toString n else toString n

/-- Python `due_date.strftime("%y%m%d")`. -/
def strf_yymmdd (d : Date) : String := pad2 (d.year % 100) ++ pad2 d.month ++ pad2 d.day

/-- Days since 1970-01-01 of a civil date (standard days-from-civil
computation with truncating integer division, as the `datetime` library
performs internally). -/
def dayNumber (d : Date) : Int :=
  let y : Int := if d.month ≤ 2 then (d.year : Int) - 1 else (d.year : Int)
  let era : Int := (if 0 ≤ y then y else y - 399) / 400
  let yoe : Int := y - era * 400
  let m : Int := (d.month : Int)
  let doy : Int := (153 * (m + (if 2 < m then -3 else 9)) + 2) / 5 + (d.day : Int) - 1
  let doe : Int := yoe * 365 + yoe / 4 - yoe / 100 + doy
  era * 146097 + doe - 719468

/-- `datetime.combine(due_date, time)` on the Kuwait timeline, in seconds. -/
def combine (d : Date) (t : Nat) : Int := dayNumber d * 86400 + (t : Int)

/-! ## `engine/worklog/models.py` -/

/-- A Django auth user (the fields `format_author_segment` and the views
read: pk, username, first/last name). -/
structure UserRec where
  id : Nat
  username : String
  first_name : String
  last_name : String
deriving DecidableEq, Repr

/-- `StandardWorkHours` singleton: `(start_time, end_time)` seconds-of-day.
`none` models the absence of the singleton row. -/
abbrev StandardHours := Option (Nat × Nat)

/-- `get_default_work_hours()`: `(start, end)` from the `StandardWorkHours`
singleton, else `(None, None)`. -/
def get_default_work_hours (cfg : StandardHours) : Option Nat × Option Nat :=
  match cfg with
  | some (s, e) => (some s, some e)
  | none => (none, none)

/-- `format_author_segment(user)`: title-cased first/last name with spaces
stripped, joined by a hyphen; username (spaces to underscores) when both
names are empty; `"UNKNOWN"` for a missing user. -/
def format_author_segment (user : Option UserRec) : String :=
  match user with
  | none => "UNKNOWN"
  | some u =>
    let parts : List String :=
      (if u.first_name ≠ "" then [removeSpaces (pyTitle (pyStrip u.first_name))] else [])
        ++ (if u.last_name ≠ "" then [removeSpaces (pyTitle (pyStrip u.last_name))] else [])
    let parts := if parts = [] then [spacesToUnderscores u.username] else parts
    String.intercalate "-" parts

/-- A `WorkLog` row.  `created_at` is an instant; `due_date`/`author` are
optional to model unset object fields before the first save; the `email_*`
triple is the scheduling state. -/
structure WorkLog where
  id : Nat
  created_at : Int
  due_date : Option Date
  author : Option UserRec
  wl_number : String
  start_time : Option Nat
  end_time : Option Nat
  notes : String
  email_pending : Bool
  email_scheduled_at : Option Int
  email_sent_at : Option Int
deriving DecidableEq, Repr

/-- The defaults block of `WorkLog.save`: when either time is missing,
fill each genuinely missing one from `get_default_work_hours`. -/
def fillDefaultTimes (cfg : StandardHours) (wl : WorkLog) : WorkLog :=
  if wl.start_time = none ∨ wl.end_time = none then
    let defaults := get_default_work_hours cfg
    let wl := if wl.start_time = none then { wl with start_time := defaults.1 } else wl
    if wl.end_time = none then { wl with end_time := defaults.2 } else wl
  else wl

/-- `WorkLog.save`: fill missing start/end time from the standard-hours
singleton, then generate `wl_number` only when it is missing (never changed
on a later save). -/
def WorkLog.save (cfg : StandardHours) (wl : WorkLog) : WorkLog :=
  let wl := fillDefaultTimes cfg wl
  if wl.wl_number = "" then
    match wl.due_date, wl.author with
    | some dd, some u =>
      { wl with wl_number := "WL-" ++ strf_yymmdd dd ++ "-" ++ format_author_segment (some u) }
    | _, _ => wl
  else wl

/-- `EditCondition` singleton: edit-eligibility policy. -/
structure EditCondition where
  only_last_wl_editable : Bool
  editable_time_since_created : Nat
deriving DecidableEq, Repr

/-- `WorklogEmailSettings` singleton; `users` holds the pks of the
many-to-many user set. -/
structure WorklogEmailSettings where
  send_new : Bool
  send_edit : Bool
  enable_scheduled_send : Bool
  recipient_email : String
  users : List Nat
deriving DecidableEq, Repr

/-- A `WorkLogEntry` row (entry payload fields as created by the views). -/
structure WorkLogEntry where
  id : Nat
  worklog_id : Nat
  vehicle_location : Nat
  job_description : String
  state : Nat
  inventory_rack : Option Int
  inventory_shelf : String
  inventory_box : String
  part_description : String
  unit_id : Option Nat
  quantity : Option Int
  time_hours : Int
  notes : String
deriving DecidableEq, Repr

/-- A `WorkLogEntryStateChange` row: the append-only transition audit log. -/
structure WorkLogEntryStateChange where
  entry_id : Nat
  old_state : Option Nat
  new_state : Nat
  changed_by : Nat
  changed_at : Int
deriving DecidableEq, Repr

/-- The relational store the views read and write: work logs, their entries,
the state-change audit log, the `JobState` catalog (by pk), and the
configuration singletons. -/
structure Db where
  worklogs : List WorkLog
  entries : List WorkLogEntry
  state_changes : List WorkLogEntryStateChange
  job_states : List Nat
  edit_condition : Option EditCondition
  standard_work_hours : StandardHours
  email_rule : Option WorklogEmailSettings
  next_entry_id : Nat
  next_worklog_id : Nat
deriving DecidableEq, Repr

/-- Replace the work log with the same id. -/
def Db.setWorklog (db : Db) (wl : WorkLog) : Db :=
  { db with worklogs := db.worklogs.map (fun w => if w.id = wl.id then wl else w) }

/-- `wl.author != request.user` comparison (by pk). -/
def WorkLog.authorIs (wl : WorkLog) (uid : Nat) : Bool :=
  match wl.author with
  | some u => u.id = uid
  | none => false

/-! ## `engine/inventory/views.py`: work-log e-mail helpers -/

/-- `_get_email_rule(user, is_new)`: the recipient address when sending is
allowed for this user and operation, else `none`.  An empty user set places
no restriction here. -/
def _get_email_rule (rule? : Option WorklogEmailSettings) (userId : Nat) (is_new : Bool) :
    Option String :=
  match rule? with
  | none => none
  | some rule =>
    if is_new && !rule.send_new then none
    else if !is_new && !rule.send_edit then none
    else if rule.recipient_email = "" then none
    else if !rule.users.isEmpty && !rule.users.contains userId then none
    else some rule.recipient_email

/-- `_compute_schedule_dt(due_date, end_time)` with `now` (the
`timezone.now()` call inside the helper) passed explicitly: Kuwait instant
of due date at the end time (or the standard end time), rolled forward one
day when not strictly in the future. -/
def _compute_schedule_dt (due_date : Option Date) (end_time : Option Nat)
    (cfg : StandardHours) (now : Int) : Option Int :=
  match due_date with
  | none => none
  | some d =>
    let target_time :=
      match end_time with
      | some t => some t
      | none => (get_default_work_hours cfg).2
    match target_time with
    | none => none
    | some t =>
      let sched := combine d t
      if sched ≤ now then some (sched + 86400) else some sched

/-- `_mark_email_pending(wl, sched_dt)`. -/
def _mark_email_pending (wl : WorkLog) (sched : Int) : WorkLog :=
  { wl with email_pending := true, email_scheduled_at := some sched, email_sent_at := none }

/-- `_mark_email_sent(wl)` at instant `now`. -/
def _mark_email_sent (wl : WorkLog) (now : Int) : WorkLog :=
  { wl with email_pending := false, email_scheduled_at := none, email_sent_at := some now }

/-! ## `engine/worklog/email_utils.py` -/

/-- `send_worklog_docx_email(worklog, is_new)`, gating logic.  The DOCX
rendering, the SMTP connection and the transport send are external
capabilities, abstracted as the three success flags; the function yields the
(stripped) recipient on success and `none` on any guard or failure.  Note
the author-membership guard holds the author to `rules.users`
unconditionally (an empty set blocks every author). -/
def send_worklog_docx_email (rule? : Option WorklogEmailSettings) (authorId : Nat)
    (is_new : Bool) (render_ok smtp_ok send_ok : Bool) : Option String :=
  match rule? with
  | none => none
  | some rules =>
    if is_new && !rules.send_new then none
    else if !is_new && !rules.send_edit then none
    else if !rules.users.contains authorId then none
    else
      let recipient := pyStrip rules.recipient_email
      if recipient = "" then none
      else if !render_ok then none
      else if !smtp_ok then none
      else if send_ok then some recipient else none

/-! ## `engine/inventory/views.py`: create / update work log -/

/-- One validated row of `_prepare_entries_payload`. -/
structure EntryPayload where
  vehicle : Nat
  job : String
  state : Nat
  rack : Option Int
  shelf : String
  box : String
  part_desc : String
  unit_id : Option Nat
  qty : Option Int
  time : Int
  notes : String
deriving DecidableEq, Repr

/-- The validated request body of `create_work_log` / `update_work_log`. -/
structure WlPayload where
  due_date : Date
  start_time : Option Nat
  end_time : Option Nat
  notes : String
  send_mode : String
  entries : List EntryPayload
deriving DecidableEq, Repr

/-- The environment a request runs in: the successive `timezone.now()`
readings (`now_req` at entry, `now_sched` inside `_compute_schedule_dt`,
`now_eval` at the schedule comparison and in `_mark_email_sent`), whether
the atomic storage transaction commits, and the e-mail infrastructure
flags. -/
structure Env where
  now_req : Int
  now_sched : Int
  now_eval : Int
  txn_ok : Bool
  render_ok : Bool
  smtp_ok : Bool
  send_ok : Bool
deriving DecidableEq, Repr

/-- A view error, keyed by the HTTP status the view uses. -/
inductive ApiError
  | notFound (msg : String)
  | forbidden (msg : String)
  | badRequest (msg : String)
  | serverError (msg : String)
deriving DecidableEq, Repr

/-- The JSON response of `create_work_log` / `update_work_log`: `okBasic`
is the early `{"ok": true, "id", "number"}` shape carrying no e-mail keys,
`okFull` the final shape with `email_recipient` and `scheduled_at`. -/
inductive WlResp
  | err (e : ApiError)
  | okBasic (id : Nat) (number : String)
  | okFull (id : Nat) (number : String) (email_recipient : Option String)
      (scheduled_at : Option Int)
deriving DecidableEq, Repr

/-- Whether a response is a success (`"ok": true`). -/
def WlResp.isOk : WlResp → Bool
  | .err _ => false
  | .okBasic _ _ => true
  | .okFull _ _ _ _ => true

/-- Outcome of a work-log view call: the response, the store afterwards,
and whether `send_worklog_docx_email` was invoked. -/
structure WlOutcome where
  resp : WlResp
  db : Db
  attempted_send : Bool
deriving DecidableEq, Repr

/-- `WorkLogEntry.objects.create(worklog=wl, ...)` from one payload row
(the model save upper-cases the shelf). -/
def createWorkLogEntry (wlId eid : Nat) (e : EntryPayload) : WorkLogEntry :=
  { id := eid, worklog_id := wlId, vehicle_location := e.vehicle,
    job_description := e.job, state := e.state, inventory_rack := e.rack,
    inventory_shelf := upperStr e.shelf, inventory_box := e.box,
    part_description := e.part_desc, unit_id := e.unit_id, quantity := e.qty,
    time_hours := e.time, notes := e.notes }

/-- The entry-creation loop, handing out consecutive fresh primary keys. -/
def buildEntries (wlId : Nat) : Nat → List EntryPayload → List WorkLogEntry
  | _, [] => []
  | eid, e :: es => createWorkLogEntry wlId eid e :: buildEntries wlId (eid + 1) es

/-- The e-mail tail shared by `create_work_log` (lines 1150-1186,
`earlyBasic := true`: missing recipient or schedule returns the basic
response) and `update_work_log` (lines 1279-1313, the final response always
carries the e-mail keys). -/
def emailPhase (db : Db) (wl : WorkLog) (user : UserRec) (is_new : Bool)
    (send_mode : String) (env : Env) (earlyBasic : Bool) : WlOutcome :=
  if send_mode = "schedule" then
    match _get_email_rule db.email_rule user.id is_new with
    | none =>
      if earlyBasic then ⟨.okBasic wl.id wl.wl_number, db, false⟩
      else ⟨.okFull wl.id wl.wl_number none none, db, false⟩
    | some _recipient =>
      match _compute_schedule_dt wl.due_date wl.end_time db.standard_work_hours env.now_sched with
      | none =>
        if earlyBasic then ⟨.okBasic wl.id wl.wl_number, db, false⟩
        else ⟨.okFull wl.id wl.wl_number none none, db, false⟩
      | some sched =>
        if sched ≤ env.now_eval then
          match send_worklog_docx_email db.email_rule (wl.author.map UserRec.id |>.getD 0)
              is_new env.render_ok env.smtp_ok env.send_ok with
          | some r =>
            ⟨.okFull wl.id wl.wl_number (some r) none,
              db.setWorklog (_mark_email_sent wl env.now_eval), true⟩
          | none => ⟨.okFull wl.id wl.wl_number none none, db, true⟩
        else
          ⟨.okFull wl.id wl.wl_number none (some sched),
            db.setWorklog (_mark_email_pending wl sched), false⟩
  else
    match send_worklog_docx_email db.email_rule (wl.author.map UserRec.id |>.getD 0)
        is_new env.render_ok env.smtp_ok env.send_ok with
    | some r =>
      ⟨.okFull wl.id wl.wl_number (some r) none,
        db.setWorklog (_mark_email_sent wl env.now_eval), true⟩
    | none => ⟨.okFull wl.id wl.wl_number none none, db, true⟩

/-- The work log `WorkLog.objects.create(...)` persists for a create
request: the fresh row as `WorkLog.save` leaves it (times defaulted, number
generated). -/
def mkSavedWl (db : Db) (user : UserRec) (p : WlPayload) (env : Env) : WorkLog :=
  WorkLog.save db.standard_work_hours
    { id := db.next_worklog_id, created_at := env.now_req,
      due_date := some p.due_date, author := some user, wl_number := "",
      start_time := p.start_time, end_time := p.end_time, notes := p.notes,
      email_pending := false, email_scheduled_at := none, email_sent_at := none }

/-- `create_work_log` after request parsing: atomically create the work log
(`WorkLog.save` fills defaults and the number; a number collision is the
unique-constraint `IntegrityError`) and its entries, then run the e-mail
tail.  A storage failure inside the atomic block leaves the store
unchanged. -/
def create_work_log (db : Db) (user : UserRec) (p : WlPayload) (env : Env) : WlOutcome :=
  if !env.txn_ok then ⟨.err (.serverError "Save failed. Please try again."), db, false⟩
  else
    let wl := mkSavedWl db user p env
    if db.worklogs.any (fun w => w.wl_number = wl.wl_number) then
      ⟨.err (.badRequest "A work log with this number already exists. Please pick a different due date or edit the existing one."),
        db, false⟩
    else
      let db1 : Db :=
        { db with
          worklogs := db.worklogs ++ [wl],
          entries := db.entries ++ buildEntries wl.id db.next_entry_id p.entries,
          next_entry_id := db.next_entry_id + p.entries.length,
          next_worklog_id := db.next_worklog_id + 1 }
      emailPhase db1 wl user true p.send_mode env true

/-- The pk of the author's most recently created work log
(`order_by("-created_at").first()`). -/
def lastWorklogId (db : Db) (uid : Nat) : Option Nat :=
  match db.worklogs.filter (fun w => w.authorIs uid) with
  | [] => none
  | w :: ws =>
    some ((ws.foldl (fun best x => if best.created_at < x.created_at then x else best) w).id)

/-- `update_work_log` after request parsing: not-found and author checks,
the `EditCondition` eligibility checks, then — atomically — the parent
field updates and the delete-all-then-recreate of the entries, then the
e-mail tail. -/
def update_work_log (db : Db) (user : UserRec) (pk : Nat) (p : WlPayload) (env : Env) :
    WlOutcome :=
  match db.worklogs.find? (fun w => w.id = pk) with
  | none => ⟨.err (.notFound "Work log not found."), db, false⟩
  | some wl =>
    if !wl.authorIs user.id then ⟨.err (.forbidden "Not allowed."), db, false⟩
    else
      let only_last := match db.edit_condition with
        | some c => c.only_last_wl_editable
        | none => false
      let hours_limit := match db.edit_condition with
        | some c => c.editable_time_since_created
        | none => 0
      let time_ok : Bool :=
        hours_limit = 0 || decide (env.now_req - wl.created_at ≤ (hours_limit : Int) * 3600)
      let last_ok : Bool := !only_last || lastWorklogId db user.id = some wl.id
      if !(time_ok && last_ok) then
        ⟨.err (.forbidden "Editing conditions are not met."), db, false⟩
      else if !env.txn_ok then
        ⟨.err (.serverError "Update failed. Please try again."), db, false⟩
      else
        let wl1 := WorkLog.save db.standard_work_hours
          { wl with
            due_date := some p.due_date, start_time := p.start_time,
            end_time := p.end_time, notes := p.notes }
        let db1 : Db :=
          { db with
            worklogs := db.worklogs.map (fun w => if w.id = pk then wl1 else w),
            entries := db.entries.filter (fun e => e.worklog_id ≠ pk)
              ++ buildEntries pk db.next_entry_id p.entries,
            next_entry_id := db.next_entry_id + p.entries.length }
        emailPhase db1 wl1 user false p.send_mode env false

/-! ## `engine/inventory/views.py`: `change_worklog_entry_state` -/

/-- Response of `change_worklog_entry_state`; the success payload carries
the (new) state pk — the rendered history string is a display artifact of
the same audit rows. -/
inductive ChangeResp
  | err (status : Nat) (msg : String)
  | ok (state : Nat)
deriving DecidableEq, Repr

/-- `int(str)` on a decimal literal, as Django coerces a string pk
(`String.toNat?` semantics at the character level): the digits folded to a
number, `none` on an empty or non-digit string. -/
def strToNat? (s : String) : Option Nat :=
  if s ≠ "" ∧ s.data.all Char.isDigit then
    some (s.data.foldl (fun n c => n * 10 + (c.toNat - 48)) 0)
  else none

/-- `change_worklog_entry_state(request, pk)`: same-state requests succeed
without touching the store; an actual transition updates the entry and
appends exactly one audit row.  A non-numeric state parameter raises an
uncaught `ValueError` (HTTP 500). -/
def change_worklog_entry_state (db : Db) (userId : Nat) (pk : Nat)
    (stateParam : String) (now : Int) : ChangeResp × Db :=
  match db.entries.find? (fun e => e.id = pk) with
  | none => (.err 404 "Entry not found.", db)
  | some entry =>
    let new_state_id := pyStrip stateParam
    if new_state_id = "" then (.err 400 "State is required.", db)
    else
      match strToNat? new_state_id with
      | none => (.err 500 "ValueError: invalid pk literal", db)
      | some sid =>
        if !db.job_states.contains sid then (.err 400 "State not found.", db)
        else if entry.state = sid then (.ok sid, db)
        else
          (.ok sid,
            { db with
              entries := db.entries.map (fun e => if e.id = pk then { e with state := sid } else e),
              state_changes := db.state_changes
                ++ [{ entry_id := pk, old_state := some entry.state, new_state := sid,
                      changed_by := userId, changed_at := now }] })

/-! ## `engine/inventory/models.py`: `InventoryItem` -/

/-- An `InventoryItem` row, restricted to the columns the embedded engine
fragments read: the composite location, the name, the legacy free-text
`units` column, the code of the FK-referenced `Unit` (`none` when the FK is
null), and the reorder-related fields. -/
structure InventoryItem where
  id : Nat
  rack : Int
  shelf : String
  box : String
  name : String
  units : String
  unit_code : Option String
  quantity_in_stock : Option Int
  reorder_level : Option Int
  discontinued : Bool
deriving DecidableEq, Repr

/-- `InventoryItem.for_reorder` (computed, not stored): true when both
stock and reorder level are present, the item is not discontinued, and the
stock is at or below the level. -/
def InventoryItem.for_reorder (it : InventoryItem) : Bool :=
  match it.quantity_in_stock, it.reorder_level, it.discontinued with
  | some q, some l, false => q ≤ l
  | _, _, _ => false

/-- The `for_reorder_ann` SQL `Case` annotation of `home_view`: the `When`
branches in order (`discontinued`, `reorder_level` null, null-safe
`quantity_in_stock <= reorder_level`), default 0.  A SQL comparison against
`NULL` is not true, so a null stock falls through to the default. -/
def for_reorder_ann (it : InventoryItem) : Nat :=
  if it.discontinued then 0
  else if it.reorder_level = none then 0
  else
    match it.quantity_in_stock, it.reorder_level with
    | some q, some l => if q ≤ l then 1 else 0
    | _, _ => 0

/-! ## `engine/inventory/views.py`: the unit filter of `home_view` -/

/-- The `synonyms` dict of `home_view`: canonical unit code to the accepted
legacy text variants. -/
def unit_synonyms : List (String × List String) :=
  [("ROLL", ["ROLL", "ROLLS"]),
   ("M", ["M", "METER", "METERS"]),
   ("CM", ["CM"]),
   ("MM", ["MM"]),
   ("LTR", ["LTR", "LITRE", "LITERS", "LITRES"]),
   ("ML", ["ML"]),
   ("PCS", ["PCS", "PC", "PIECES"]),
   ("PAIR", ["PAIR", "PAIRS"]),
   ("SET", ["SET", "SETS"]),
   ("KIT", ["KIT", "KITS"]),
   ("ORGANISER", ["ORGANISER", "ORGANIZER"]),
   ("BOX", ["BOX", "BOXES"]),
   ("CAN", ["CAN", "CANS"]),
   ("KGM", ["KGM", "KG", "KGS", "KILOGRAM", "KILOGRAMS"])]

/-- `synonyms.get(code_up, [code_up])`. -/
def accepted_units (code_up : String) : List String :=
  match unit_synonyms.find? (fun p => p.1 = code_up) with
  | some p => p.2
  | none => [code_up]

/-- The `DEFAULT_UNITS` seed of `engine/inventory/models.py`: the unit
codes present after bootstrap. -/
def DEFAULT_UNITS : List String :=
  ["PCS", "PAIR", "SET", "KIT", "ORGANISER", "BOX", "MM", "CM", "M",
   "LTR", "ML", "CAN", "KGM", "ROLL"]

/-- Whether one inventory row passes the unit-filter `Q` expression:
FK code `iexact` the upper-cased filter, or legacy `units` exactly one of
the accepted variants, or legacy `units` `iexact` the filter. -/
def unitFilterMatches (code_up : String) (it : InventoryItem) : Bool :=
  (match it.unit_code with
   | some c => iexact c code_up
   | none => false)
  || (accepted_units code_up).contains it.units
  || iexact it.units code_up

/-- The unit-filter fragment of `home_view` (`unit_filter_code` already
non-empty): when some `Unit` row bears the requested code
(case-insensitively), keep the rows matched by `unitFilterMatches`; an
unrecognized code drops the filter, leaving the queryset untouched. -/
def unit_filter (unitCodes : List String) (unit_filter_code : String)
    (items : List InventoryItem) : List InventoryItem :=
  let code_up := upperStr unit_filter_code
  if unitCodes.any (fun c => iexact c code_up) then
    items.filter (unitFilterMatches code_up)
  else items

/-! ## `engine/inventory/views.py`: the name sort key of `home_view` -/

/-- The `name_digit_flag` annotation: `Substr(name, 1, 1)` in `"0"… "9"`
gives 0, anything else (a letter, another character, or an empty name)
gives 1. -/
def name_digit_flag (name : String) : Nat :=
  match name.data with
  | [] => 1
  | c :: _ => if c.isDigit then 0 else 1

/-- The ascending name ordering of `home_view`:
`order_by(name_digit_flag, name_lower, rack, shelf, box)` as a pairwise
(total) comparison. -/
def nameSortLE (a b : InventoryItem) : Bool :=
  if name_digit_flag a.name ≠ name_digit_flag b.name then
    decide (name_digit_flag a.name < name_digit_flag b.name)
  else if lowerStr a.name ≠ lowerStr b.name then
    decide (lowerStr a.name < lowerStr b.name)
  else if a.rack ≠ b.rack then decide (a.rack < b.rack)
  else if a.shelf ≠ b.shelf then decide (a.shelf < b.shelf)
  else decide (a.box ≤ b.box)

/-! ## Helper lemmas -/

theorem fillDefaultTimes_wl_number (cfg : StandardHours) (wl : WorkLog) :
    (fillDefaultTimes cfg wl).wl_number = wl.wl_number := by
  unfold fillDefaultTimes
  dsimp only
  repeat' split
  all_goals rfl

theorem fillDefaultTimes_due_date (cfg : StandardHours) (wl : WorkLog) :
    (fillDefaultTimes cfg wl).due_date = wl.due_date := by
  unfold fillDefaultTimes
  dsimp only
  repeat' split
  all_goals rfl

theorem fillDefaultTimes_author (cfg : StandardHours) (wl : WorkLog) :
    (fillDefaultTimes cfg wl).author = wl.author := by
  unfold fillDefaultTimes
  dsimp only
  repeat' split
  all_goals rfl

theorem save_wl_number_of_empty (cfg : StandardHours) (wl : WorkLog) (dd : Date)
    (u : UserRec) (h0 : wl.wl_number = "") (hd : wl.due_date = some dd)
    (ha : wl.author = some u) :
    (WorkLog.save cfg wl).wl_number =
      "WL-" ++ strf_yymmdd dd ++ "-" ++ format_author_segment (some u) := by
  unfold WorkLog.save
  dsimp only
  rw [fillDefaultTimes_wl_number, fillDefaultTimes_due_date, fillDefaultTimes_author, h0, hd, ha]
  rfl

theorem save_wl_number_of_nonempty (cfg : StandardHours) (wl : WorkLog)
    (h0 : wl.wl_number ≠ "") :
    (WorkLog.save cfg wl).wl_number = wl.wl_number := by
  unfold WorkLog.save
  dsimp only
  rw [fillDefaultTimes_wl_number]
  simp only [h0, if_false]
  exact fillDefaultTimes_wl_number cfg wl

/-! ## The claims -/

/-- C1: `wl_number` is computed exactly once, at the first save on which
`due_date` and `author` are set, as `WL-` + the due date `yymmdd` + the
author segment (title-cased first/last name with spaces stripped, joined by
a hyphen, username fallback), and no subsequent save ever changes it, even
when `due_date` or the author's name changes.  A log due 2025-03-10 by an
author named Leo Admin gets `WL-250310-Leo-Admin`. -/
theorem C1_wl_number_once_and_immutable :
    (∀ (cfg : StandardHours) (wl : WorkLog) (dd : Date) (u : UserRec),
        wl.wl_number = "" → wl.due_date = some dd → wl.author = some u →
          (WorkLog.save cfg wl).wl_number =
            "WL-" ++ strf_yymmdd dd ++ "-" ++ format_author_segment (some u))
    ∧ (∀ (cfg : StandardHours) (wl : WorkLog),
        wl.wl_number ≠ "" → (WorkLog.save cfg wl).wl_number = wl.wl_number)
    ∧ (WorkLog.save none
        { id := 1, created_at := 0, due_date := some ⟨2025, 3, 10⟩,
          author := some ⟨1, "leo", "Leo", "Admin"⟩, wl_number := "",
          start_time := none, end_time := none, notes := "",
          email_pending := false, email_scheduled_at := none,
          email_sent_at := none }).wl_number = "WL-250310-Leo-Admin" :=
  ⟨save_wl_number_of_empty, save_wl_number_of_nonempty, by decide⟩

/-- C1 witness: a saved log keeps `WL-250310-Leo-Admin` even after its due
date and author change. -/
theorem C1_wl_number_witness :
    (WorkLog.save (some (28800, 61200))
      { id := 1, created_at := 0, due_date := some ⟨2026, 12, 31⟩,
        author := some ⟨2, "maria", "Maria", "Nowak"⟩,
        wl_number := "WL-250310-Leo-Admin", start_time := none,
        end_time := none, notes := "", email_pending := false,
        email_scheduled_at := none, email_sent_at := none }).wl_number =
      "WL-250310-Leo-Admin" :=
  C1_wl_number_once_and_immutable.2.1 (some (28800, 61200)) _ (by decide)

/-- C9: the derived `for_reorder` flag is true exactly when both
`quantity_in_stock` and `reorder_level` are present, the item is not
discontinued, and the stock is at or below the level — false in every other
combination, including both-null — and the SQL `for_reorder_ann` annotation
of `home_view` agrees with the Python property on every item. -/
theorem C9_for_reorder_characterization :
    ∀ it : InventoryItem,
      (it.for_reorder = true ↔
        ∃ q l, it.quantity_in_stock = some q ∧ it.reorder_level = some l ∧
          it.discontinued = false ∧ q ≤ l)
      ∧ for_reorder_ann it = (if it.for_reorder then 1 else 0) := by
  intro it
  obtain ⟨i, ra, sh, bx, nm, un, uc, qs, rl, disc⟩ := it
  refine ⟨?_, ?_⟩
  · cases qs <;> cases rl <;> cases disc <;>
      simp [InventoryItem.for_reorder]
  · cases qs <;> cases rl <;> cases disc <;>
      simp [InventoryItem.for_reorder, for_reorder_ann]

/-- Demo inventory rows for the sort and filter scenarios: an item named
`2-Bracket` placed *after* `A-Bracket` by every location key, an item whose
FK unit is `ROLL`, and an item whose legacy text unit is `ROLLS`. -/
def item2Bracket : InventoryItem :=
  ⟨1, 9, "Z", "9", "2-Bracket", "", none, none, none, false⟩

def itemABracket : InventoryItem :=
  ⟨2, 1, "A", "1", "A-Bracket", "", none, none, none, false⟩

def itemRollFK : InventoryItem :=
  ⟨3, 1, "A", "1", "Tape", "ROLL", some "ROLL", none, none, false⟩

def itemRollsText : InventoryItem :=
  ⟨4, 1, "A", "2", "Foil", "ROLLS", none, none, none, false⟩

/-- C8: the name sort of `home_view` is not lexicographic: a name starting
with a digit is flagged 0 and one starting with any other character
(letters included) is flagged 1, the digit group sorts strictly before the
letter group regardless of the names, names within one group compare by
their lower-cased form, and full ties fall back to rack, then shelf, then
box; in particular `2-Bracket` sorts before `A-Bracket` ascending. -/
theorem C8_name_sort_digit_first :
    (∀ (c : Char) (s : String), s.data.head? = some c → c.isDigit = true →
        name_digit_flag s = 0)
    ∧ (∀ (c : Char) (s : String), s.data.head? = some c → c.isDigit = false →
        name_digit_flag s = 1)
    ∧ (∀ a b : InventoryItem, name_digit_flag a.name = 0 → name_digit_flag b.name = 1 →
        nameSortLE a b = true ∧ nameSortLE b a = false)
    ∧ (∀ a b : InventoryItem, name_digit_flag a.name = name_digit_flag b.name →
        lowerStr a.name ≠ lowerStr b.name →
        (nameSortLE a b = true ↔ lowerStr a.name < lowerStr b.name))
    ∧ (∀ a b : InventoryItem, name_digit_flag a.name = name_digit_flag b.name →
        lowerStr a.name = lowerStr b.name → a.rack ≠ b.rack →
        (nameSortLE a b = true ↔ a.rack < b.rack))
    ∧ (∀ a b : InventoryItem, name_digit_flag a.name = name_digit_flag b.name →
        lowerStr a.name = lowerStr b.name → a.rack = b.rack → a.shelf ≠ b.shelf →
        (nameSortLE a b = true ↔ a.shelf < b.shelf))
    ∧ (∀ a b : InventoryItem, name_digit_flag a.name = name_digit_flag b.name →
        lowerStr a.name = lowerStr b.name → a.rack = b.rack → a.shelf = b.shelf →
        (nameSortLE a b = true ↔ a.box ≤ b.box))
    ∧ (nameSortLE item2Bracket itemABracket = true
        ∧ nameSortLE itemABracket item2Bracket = false) := by
  refine ⟨?_, ?_, ?_, ?_, ?_, ?_, ?_, by decide⟩
  · intro c s hh hd
    obtain ⟨l⟩ := s
    cases l with
    | nil => simp at hh
    | cons x xs => simp at hh; subst hh; simp [name_digit_flag, hd]
  · intro c s hh hd
    obtain ⟨l⟩ := s
    cases l with
    | nil => simp at hh
    | cons x xs => simp at hh; subst hh; simp [name_digit_flag, hd]
  · intro a b ha hb
    simp [nameSortLE, ha, hb]
  · intro a b hf hn
    simp [nameSortLE, hf, hn]
  · intro a b hf hn hr
    simp [nameSortLE, hf, hn, hr]
  · intro a b hf hn hr hs
    simp [nameSortLE, hf, hn, hr, hs]
  · intro a b hf hn hr hs
    simp [nameSortLE, hf, hn, hr, hs]

/-- C8 witness: the digit-first rule applied to the two scenario rows. -/
theorem C8_name_sort_witness :
    nameSortLE item2Bracket itemABracket = true
      ∧ nameSortLE itemABracket item2Bracket = false :=
  C8_name_sort_digit_first.2.2.1 item2Bracket itemABracket (by decide) (by decide)

/-- C7: the unit filter of `home_view` expands a recognized code to its
synonym set (`ROLL` to `ROLL`/`ROLLS`, `M` to `M`/`METER`/`METERS`, …)
before matching a row by FK-referenced code or by the legacy free-text
`units` column, and a code no `Unit` row bears is silently ignored (the
filter is dropped, never an empty result); filtering by `ROLLS` over the
bootstrap unit codes returns both the `unit.code = "ROLL"` item and the
legacy `units = "ROLLS"` item. -/
theorem C7_unit_filter_synonyms :
    (∀ (codes : List String) (code : String) (items : List InventoryItem),
        codes.any (fun c => iexact c (upperStr code)) = false →
        unit_filter codes code items = items)
    ∧ (∀ (codes : List String) (code : String) (items : List InventoryItem)
        (it : InventoryItem),
        codes.any (fun c => iexact c (upperStr code)) = true →
        (it ∈ unit_filter codes code items ↔
          it ∈ items ∧ unitFilterMatches (upperStr code) it = true))
    ∧ accepted_units "ROLL" = ["ROLL", "ROLLS"]
    ∧ accepted_units "M" = ["M", "METER", "METERS"]
    ∧ DEFAULT_UNITS.any (fun c => iexact c (upperStr "ROLLS")) = false
    ∧ itemRollFK.unit_code = some "ROLL"
    ∧ itemRollsText.units = "ROLLS"
    ∧ unit_filter DEFAULT_UNITS "ROLLS" [itemRollFK, itemRollsText]
        = [itemRollFK, itemRollsText]
    ∧ unit_filter DEFAULT_UNITS "ROLL" [itemRollFK, itemRollsText]
        = [itemRollFK, itemRollsText] := by
  refine ⟨?_, ?_, by decide, by decide, by decide, by decide, by decide, by decide, by decide⟩
  · intro codes code items h
    simp [unit_filter, h]
  · intro codes code items it h
    simp [unit_filter, h, List.mem_filter]

/-- C7 witness: dropping the unrecognized code `GROSS` leaves the queryset
untouched. -/
theorem C7_unit_filter_witness :
    unit_filter DEFAULT_UNITS "GROSS" [itemRollFK, itemRollsText]
      = [itemRollFK, itemRollsText] :=
  C7_unit_filter_synonyms.1 DEFAULT_UNITS "GROSS" [itemRollFK, itemRollsText] (by decide)

/-- Demo store for the state-change scenario: one entry in state 5, states
5 and 6 in the catalog. -/
def dbStateDemo : Db :=
  { worklogs := [], entries := [⟨10, 1, 1, "job", 5, none, "", "", "", none, none, 4, ""⟩],
    state_changes := [], job_states := [5, 6], edit_condition := none,
    standard_work_hours := none, email_rule := none, next_entry_id := 11,
    next_worklog_id := 2 }

/-- C4: a change-entry-state request to a *different* state updates the
entry and appends exactly one `WorkLogEntryStateChange` record carrying
(`old_state`, `new_state`, `changed_by`, at the call instant); a request
naming the entry's *current* state returns success with the store untouched
and writes no record; hence a store whose history has no record with
`old_state = new_state` keeps that invariant across every call. -/
theorem C4_state_change_no_noop_records :
    (∀ (db : Db) (uid pk : Nat) (s : String) (now : Int),
        (∀ sc ∈ db.state_changes, sc.old_state ≠ some sc.new_state) →
        ∀ sc ∈ (change_worklog_entry_state db uid pk s now).2.state_changes,
          sc.old_state ≠ some sc.new_state)
    ∧ (∀ (db : Db) (uid pk : Nat) (s : String) (now : Int)
        (entry : WorkLogEntry) (sid : Nat),
        db.entries.find? (fun e => e.id = pk) = some entry →
        strToNat? (pyStrip s) = some sid →
        db.job_states.contains sid = true →
        entry.state = sid →
        change_worklog_entry_state db uid pk s now = (.ok sid, db))
    ∧ (∀ (db : Db) (uid pk : Nat) (s : String) (now : Int)
        (entry : WorkLogEntry) (sid : Nat),
        db.entries.find? (fun e => e.id = pk) = some entry →
        strToNat? (pyStrip s) = some sid →
        db.job_states.contains sid = true →
        entry.state ≠ sid →
        change_worklog_entry_state db uid pk s now =
          (.ok sid,
            { db with
              entries := db.entries.map
                (fun e => if e.id = pk then { e with state := sid } else e),
              state_changes := db.state_changes ++
                [{ entry_id := pk, old_state := some entry.state, new_state := sid,
                   changed_by := uid, changed_at := now }] })) := by
  have hne0 : ∀ s : String, ∀ sid : Nat, strToNat? (pyStrip s) = some sid →
      ¬ pyStrip s = "" := by
    intro s sid hp h
    rw [h] at hp
    simp [strToNat?] at hp
  refine ⟨?_, ?_, ?_⟩
  · intro db uid pk s now hinv
    unfold change_worklog_entry_state
    cases hfind : db.entries.find? (fun e => e.id = pk) with
    | none => exact hinv
    | some entry =>
      dsimp only
      split
      · exact hinv
      · cases hp : strToNat? (pyStrip s) with
        | none => exact hinv
        | some sid =>
          dsimp only
          split
          · exact hinv
          · split
            · exact hinv
            · rename_i hne
              intro sc hsc
              rcases List.mem_append.mp hsc with h | h
              · exact hinv sc h
              · rw [List.mem_singleton.mp h]
                simpa using hne
  · intro db uid pk s now entry sid hfind hp hcont heq
    unfold change_worklog_entry_state
    rw [hfind]
    dsimp only
    rw [if_neg (hne0 s sid hp), hp]
    dsimp only
    simp [heq]
    simpa using hcont
  · intro db uid pk s now entry sid hfind hp hcont hne
    unfold change_worklog_entry_state
    rw [hfind]
    dsimp only
    rw [if_neg (hne0 s sid hp), hp]
    dsimp only
    simp [hne]
    simpa using hcont

/-- C4 witness: a same-state request (`"5"`) on the demo store is a no-op
success. -/
theorem C4_state_change_witness :
    change_worklog_entry_state dbStateDemo 9 10 "5" 1000 = (.ok 5, dbStateDemo) :=
  C4_state_change_no_noop_records.2.1 dbStateDemo 9 10 "5" 1000
    ⟨10, 1, 1, "job", 5, none, "", "", "", none, none, 4, ""⟩ 5
    (by decide) (by decide) (by decide) (by decide)

/-- An e-mail rule whose user set is empty, with every other sending
condition satisfied. -/
def emptyUsersRule : WorklogEmailSettings :=
  ⟨true, true, true, "ops@example.com", []⟩

/-- C6 counterexample: with a `WorklogEmailSettings` row present,
`send_new` enabled, a non-empty recipient and an *empty* user set, the gate
`_get_email_rule` grants sending for author 7, yet
`send_worklog_docx_email` — rendering, SMTP and transport all succeeding —
sends nothing: an empty user set blocks dispatch for every author instead
of imposing no restriction. -/
theorem C6_counterexample_empty_users_blocks_send :
    _get_email_rule (some emptyUsersRule) 7 true = some "ops@example.com"
      ∧ send_worklog_docx_email (some emptyUsersRule) 7 true true true true = none := by
  decide

/-- C6 (amended): a work log e-mail is *scheduled* only when a rule row
exists, the operation flag is on, the recipient is non-empty and the author
lies in a non-empty user set (an empty set is unrestricted at the gate);
but the e-mail itself is *dispatched* only when additionally the author is
a member of the rule's user set — so with an empty user set the gate lets a
log be marked pending, yet no e-mail is ever sent for any author. -/
theorem C6_email_gating_amended :
    (∀ (rule? : Option WorklogEmailSettings) (uid : Nat) (is_new : Bool) (r : String),
        _get_email_rule rule? uid is_new = some r ↔
          ∃ rule, rule? = some rule
            ∧ (if is_new then rule.send_new else rule.send_edit) = true
            ∧ rule.recipient_email ≠ ""
            ∧ (rule.users = [] ∨ uid ∈ rule.users)
            ∧ r = rule.recipient_email)
    ∧ (∀ (rule? : Option WorklogEmailSettings) (aid : Nat) (is_new ro so ko : Bool)
        (r : String),
        send_worklog_docx_email rule? aid is_new ro so ko = some r ↔
          ∃ rule, rule? = some rule
            ∧ (if is_new then rule.send_new else rule.send_edit) = true
            ∧ aid ∈ rule.users
            ∧ pyStrip rule.recipient_email ≠ ""
            ∧ ro = true ∧ so = true ∧ ko = true
            ∧ r = pyStrip rule.recipient_email)
    ∧ (∀ (rule : WorklogEmailSettings) (aid : Nat) (is_new ro so ko : Bool),
        rule.users = [] →
        send_worklog_docx_email (some rule) aid is_new ro so ko = none) := by
  refine ⟨?_, ?_, ?_⟩
  · intro rule? uid is_new r
    cases rule? with
    | none => simp [_get_email_rule]
    | some rule =>
      simp only [_get_email_rule]
      cases is_new <;>
        cases hsn : rule.send_new <;>
          cases hse : rule.send_edit <;>
            by_cases hre : rule.recipient_email = "" <;>
              by_cases hu : rule.users.isEmpty <;>
                by_cases hc : rule.users.contains uid <;>
                  simp_all
      all_goals exact eq_comm
  · intro rule? aid is_new ro so ko r
    cases rule? with
    | none => simp [send_worklog_docx_email]
    | some rule =>
      simp only [send_worklog_docx_email]
      cases is_new <;>
        cases hsn : rule.send_new <;>
          cases hse : rule.send_edit <;>
            by_cases hc : rule.users.contains aid <;>
              by_cases hre : pyStrip rule.recipient_email = "" <;>
                cases ro <;> cases so <;> cases ko <;>
                  simp_all
      all_goals exact eq_comm
  · intro rule aid is_new ro so ko h
    simp [send_worklog_docx_email, h]

/-! ## Facts about the entry-creation loop and the e-mail tail -/

theorem buildEntries_worklog_id (w : Nat) (l : List EntryPayload) :
    ∀ (n : Nat), ∀ e ∈ buildEntries w n l, e.worklog_id = w := by
  induction l with
  | nil => intro n e he; simp [buildEntries] at he
  | cons x xs ih =>
    intro n e he
    rcases (List.mem_cons).mp he with h | h
    · rw [h]; rfl
    · exact ih (n + 1) e h

theorem buildEntries_id_ge (w : Nat) (l : List EntryPayload) :
    ∀ (n : Nat), ∀ e ∈ buildEntries w n l, n ≤ e.id := by
  induction l with
  | nil => intro n e he; simp [buildEntries] at he
  | cons x xs ih =>
    intro n e he
    rcases (List.mem_cons).mp he with h | h
    · rw [h]; exact Nat.le_refl n
    · exact Nat.le_of_succ_le (ih (n + 1) e h)

theorem buildEntries_length (w : Nat) (l : List EntryPayload) :
    ∀ (n : Nat), (buildEntries w n l).length = l.length := by
  induction l with
  | nil => intro n; rfl
  | cons x xs ih => intro n; simp [buildEntries, ih (n + 1)]

/-- Deleting every entry of one work log and recreating the submitted set
leaves exactly the recreated set attached to it. -/
theorem replaced_entries_filter (old : List WorkLogEntry) (pk n : Nat)
    (l : List EntryPayload) :
    ((old.filter (fun e => e.worklog_id ≠ pk))
        ++ buildEntries pk n l).filter (fun e => e.worklog_id = pk)
      = buildEntries pk n l := by
  rw [List.filter_append]
  have h1 : (old.filter (fun e => e.worklog_id ≠ pk)).filter
      (fun e => e.worklog_id = pk) = [] := by
    rw [List.filter_eq_nil_iff]
    intro a ha
    have := List.of_mem_filter ha
    simp at this
    simp [this]
  have h2 : (buildEntries pk n l).filter (fun e => e.worklog_id = pk)
      = buildEntries pk n l := by
    rw [List.filter_eq_self]
    intro a ha
    simp [buildEntries_worklog_id pk l n a ha]
  rw [h1, h2, List.nil_append]

/-- The e-mail tail never touches the entries table. -/
theorem emailPhase_entries (db : Db) (wl : WorkLog) (user : UserRec)
    (is_new : Bool) (mode : String) (env : Env) (eb : Bool) :
    (emailPhase db wl user is_new mode env eb).db.entries = db.entries := by
  unfold emailPhase Db.setWorklog
  repeat' split
  all_goals rfl

/-- The e-mail tail always reports success. -/
theorem emailPhase_resp_isOk (db : Db) (wl : WorkLog) (user : UserRec)
    (is_new : Bool) (mode : String) (env : Env) (eb : Bool) :
    (emailPhase db wl user is_new mode env eb).resp.isOk = true := by
  unfold emailPhase
  repeat' split
  all_goals rfl

/-- `update_work_log` either fails, leaving the store untouched, or (the
target found, every check passed, the transaction committed) hands the
replaced store to the e-mail tail. -/
theorem update_work_log_shape (db : Db) (user : UserRec) (pk : Nat)
    (p : WlPayload) (env : Env) :
    (∃ msg, update_work_log db user pk p env = ⟨.err msg, db, false⟩)
    ∨ (∃ wl, db.worklogs.find? (fun w => w.id = pk) = some wl
        ∧ update_work_log db user pk p env =
          emailPhase
            { db with
              worklogs := db.worklogs.map (fun w => if w.id = pk then
                  WorkLog.save db.standard_work_hours
                    { wl with
                      due_date := some p.due_date, start_time := p.start_time,
                      end_time := p.end_time, notes := p.notes }
                else w),
              entries := db.entries.filter (fun e => e.worklog_id ≠ pk)
                ++ buildEntries pk db.next_entry_id p.entries,
              next_entry_id := db.next_entry_id + p.entries.length }
            (WorkLog.save db.standard_work_hours
              { wl with
                due_date := some p.due_date, start_time := p.start_time,
                end_time := p.end_time, notes := p.notes })
            user false p.send_mode env false) := by
  unfold update_work_log
  cases hfind : db.worklogs.find? (fun w => w.id = pk) with
  | none => exact Or.inl ⟨_, rfl⟩
  | some wl =>
    dsimp only
    split
    · exact Or.inl ⟨_, rfl⟩
    · split
      · exact Or.inl ⟨_, rfl⟩
      · split
        · exact Or.inl ⟨_, rfl⟩
        · exact Or.inr ⟨wl, rfl, rfl⟩

/-- C2: a successful `update_work_log` for work log `pk` leaves exactly the
submitted entries attached to it (the recreated rows, one per submitted
row, in order) and none of the previously attached rows; any failing
outcome leaves the store — previously attached entries and parent fields —
exactly as it was (the delete-and-recreate runs inside one atomic
transaction with the parent update). -/
theorem C2_full_replace_atomic :
    (∀ (db : Db) (user : UserRec) (pk : Nat) (p : WlPayload) (env : Env),
        (update_work_log db user pk p env).resp.isOk = true →
          (update_work_log db user pk p env).db.entries.filter
              (fun e => e.worklog_id = pk)
            = buildEntries pk db.next_entry_id p.entries
          ∧ (buildEntries pk db.next_entry_id p.entries).length = p.entries.length)
    ∧ (∀ (db : Db) (user : UserRec) (pk : Nat) (p : WlPayload) (env : Env)
        (e : WorkLogEntry),
        (update_work_log db user pk p env).resp.isOk = true →
        e ∈ db.entries → e.worklog_id = pk → e.id < db.next_entry_id →
        e ∉ (update_work_log db user pk p env).db.entries)
    ∧ (∀ (db : Db) (user : UserRec) (pk : Nat) (p : WlPayload) (env : Env),
        (update_work_log db user pk p env).resp.isOk = false →
        (update_work_log db user pk p env).db = db) := by
  refine ⟨?_, ?_, ?_⟩
  · intro db user pk p env hok
    rcases update_work_log_shape db user pk p env with ⟨msg, heq⟩ | ⟨wl, hfind, heq⟩
    · rw [heq] at hok; exact absurd hok (by simp [WlResp.isOk])
    · rw [heq, emailPhase_entries]
      exact ⟨replaced_entries_filter db.entries pk db.next_entry_id p.entries,
        buildEntries_length pk p.entries db.next_entry_id⟩
  · intro db user pk p env e hok hmem hwl hid
    rcases update_work_log_shape db user pk p env with ⟨msg, heq⟩ | ⟨wl, hfind, heq⟩
    · rw [heq] at hok; exact absurd hok (by simp [WlResp.isOk])
    · rw [heq, emailPhase_entries]
      intro hin
      rcases List.mem_append.mp hin with h | h
      · have := List.of_mem_filter h
        simp at this
        exact this hwl
      · exact absurd hid
          (Nat.not_lt.mpr (buildEntries_id_ge pk p.entries db.next_entry_id e h))
  · intro db user pk p env hfail
    rcases update_work_log_shape db user pk p env with ⟨msg, heq⟩ | ⟨wl, hfind, heq⟩
    · rw [heq]
    · rw [heq] at hfail
      rw [emailPhase_resp_isOk] at hfail
      cases hfail

/-! ## Demo data: one author with two work logs -/

def leo : UserRec := ⟨1, "leo", "Leo", "Admin"⟩

def wlOlder : WorkLog :=
  ⟨1, 100, some ⟨2025, 3, 9⟩, some leo, "WL-250309-Leo-Admin",
    some 28800, some 61200, "", false, none, none⟩

def wlNewer : WorkLog :=
  ⟨2, 200, some ⟨2025, 3, 10⟩, some leo, "WL-250310-Leo-Admin",
    some 28800, some 61200, "", false, none, none⟩

def entryPayDemo : EntryPayload :=
  ⟨1, "fix brakes", 5, none, "a", "b1", "", none, none, 4, ""⟩

/-- Two work logs of the same author (`wlNewer` created later), one old
entry attached to each, `only_last_wl_editable` on, no time limit. -/
def dbTwoLogs : Db :=
  { worklogs := [wlOlder, wlNewer],
    entries := [⟨10, 1, 1, "old job", 5, none, "", "", "", none, none, 4, ""⟩,
                ⟨11, 2, 1, "old job 2", 5, none, "", "", "", none, none, 4, ""⟩],
    state_changes := [], job_states := [5], edit_condition := some ⟨true, 0⟩,
    standard_work_hours := some (28800, 61200), email_rule := none,
    next_entry_id := 12, next_worklog_id := 3 }

def payDemo : WlPayload :=
  ⟨⟨2025, 3, 10⟩, some 28800, some 61200, "notes", "none", [entryPayDemo]⟩

def envDemo : Env := ⟨990000, 990000, 990000, true, true, true, true⟩

/-- C3: an update by the author is admitted only when every configured
`EditCondition` constraint holds — with `only_last_wl_editable` the target
must be the author's most recently created log, and with a nonzero
`editable_time_since_created` the elapsed time since creation must not
exceed that many hours; a violation is the 403 "Editing conditions are not
met.", distinguishable from the 404 "Work log not found." and from the 403
"Not allowed." of a foreign author.  On the demo store the author's older
log is rejected and the newer one updates successfully. -/
theorem C3_edit_conditions_enforced :
    (∀ (db : Db) (user : UserRec) (pk : Nat) (p : WlPayload) (env : Env),
        db.worklogs.find? (fun w => w.id = pk) = none →
        update_work_log db user pk p env
          = ⟨.err (.notFound "Work log not found."), db, false⟩)
    ∧ (∀ (db : Db) (user : UserRec) (pk : Nat) (p : WlPayload) (env : Env)
        (wl : WorkLog),
        db.worklogs.find? (fun w => w.id = pk) = some wl →
        wl.authorIs user.id = false →
        update_work_log db user pk p env
          = ⟨.err (.forbidden "Not allowed."), db, false⟩)
    ∧ (∀ (db : Db) (user : UserRec) (pk : Nat) (p : WlPayload) (env : Env)
        (wl : WorkLog) (cond : EditCondition),
        db.worklogs.find? (fun w => w.id = pk) = some wl →
        wl.authorIs user.id = true →
        db.edit_condition = some cond →
        ((cond.only_last_wl_editable = true ∧ lastWorklogId db user.id ≠ some wl.id)
          ∨ (cond.editable_time_since_created ≠ 0
              ∧ (cond.editable_time_since_created : Int) * 3600
                  < env.now_req - wl.created_at)) →
        update_work_log db user pk p env
          = ⟨.err (.forbidden "Editing conditions are not met."), db, false⟩)
    ∧ (∀ (db : Db) (user : UserRec) (pk : Nat) (p : WlPayload) (env : Env)
        (wl : WorkLog) (cond : EditCondition),
        db.worklogs.find? (fun w => w.id = pk) = some wl →
        db.edit_condition = some cond →
        (update_work_log db user pk p env).resp.isOk = true →
          (cond.only_last_wl_editable = true → lastWorklogId db user.id = some wl.id)
          ∧ (cond.editable_time_since_created ≠ 0 →
              env.now_req - wl.created_at
                ≤ (cond.editable_time_since_created : Int) * 3600))
    ∧ (update_work_log dbTwoLogs leo 1 payDemo envDemo
        = ⟨.err (.forbidden "Editing conditions are not met."), dbTwoLogs, false⟩)
    ∧ (update_work_log dbTwoLogs leo 2 payDemo envDemo).resp.isOk = true := by
  refine ⟨?_, ?_, ?_, ?_, by decide, by decide⟩
  · intro db user pk p env hnone
    unfold update_work_log
    rw [hnone]
  · intro db user pk p env wl hfind hauth
    unfold update_work_log
    rw [hfind]
    dsimp only
    rw [hauth]
    rfl
  · intro db user pk p env wl cond hfind hauth hcond hviol
    unfold update_work_log
    rw [hfind]
    dsimp only
    rw [hauth]
    rw [if_neg (by decide : ¬ ((!true : Bool) = true))]
    rw [hcond]
    dsimp only
    split
    · rfl
    · rename_i hn
      exfalso
      apply hn
      rcases hviol with ⟨h1, h2⟩ | ⟨h1, h2⟩
      · simp [h1, h2]
      · simp only [Bool.not_eq_true', Bool.and_eq_false_iff]
        left
        simp only [Bool.or_eq_false_iff, decide_eq_false_iff_not]
        exact ⟨by exact_mod_cast h1, by omega⟩
  · intro db user pk p env wl cond hfind hcond hok
    unfold update_work_log at hok
    rw [hfind] at hok
    dsimp only at hok
    cases hauth : wl.authorIs user.id with
    | false => rw [hauth] at hok; exact absurd hok (by simp [WlResp.isOk])
    | true =>
      rw [hauth] at hok
      rw [if_neg (by decide : ¬ ((!true : Bool) = true))] at hok
      rw [hcond] at hok
      dsimp only at hok
      split at hok
      · exact absurd hok (by simp [WlResp.isOk])
      · rename_i hn
        simp at hn
        obtain ⟨htime, hlast⟩ := hn
        refine ⟨hlast, ?_⟩
        intro hhours
        have := htime hhours
        omega

/-- C2 witness: updating the demo author's newer log with one submitted
entry leaves exactly that recreated entry attached. -/
theorem C2_full_replace_witness :
    (update_work_log dbTwoLogs leo 2 payDemo envDemo).db.entries.filter
        (fun e => e.worklog_id = 2)
      = buildEntries 2 dbTwoLogs.next_entry_id payDemo.entries
    ∧ (buildEntries 2 dbTwoLogs.next_entry_id payDemo.entries).length
        = payDemo.entries.length :=
  C2_full_replace_atomic.1 dbTwoLogs leo 2 payDemo envDemo (by decide)

/-- C3 witness: the author's older log is rejected with the
editing-conditions error on the demo store. -/
theorem C3_edit_conditions_witness :
    update_work_log dbTwoLogs leo 1 payDemo envDemo
      = ⟨.err (.forbidden "Editing conditions are not met."), dbTwoLogs, false⟩ :=
  C3_edit_conditions_enforced.2.2.1 dbTwoLogs leo 1 payDemo envDemo wlOlder ⟨true, 0⟩
    (by decide) (by decide) (by decide) (Or.inl ⟨rfl, by decide⟩)

/-! ## Facts about `WorkLog.save` fields and the schedule computation -/

theorem save_end_time (cfg : StandardHours) (wl : WorkLog) :
    (WorkLog.save cfg wl).end_time = (fillDefaultTimes cfg wl).end_time := by
  unfold WorkLog.save
  dsimp only
  repeat' split
  all_goals rfl

theorem fillDefaultTimes_end_time_none (wl : WorkLog) (h : wl.end_time = none) :
    (fillDefaultTimes none wl).end_time = none := by
  unfold fillDefaultTimes
  dsimp only [get_default_work_hours]
  repeat' split
  all_goals simp_all

theorem save_email_fields (cfg : StandardHours) (wl : WorkLog) :
    (WorkLog.save cfg wl).email_pending = wl.email_pending
    ∧ (WorkLog.save cfg wl).email_scheduled_at = wl.email_scheduled_at
    ∧ (WorkLog.save cfg wl).email_sent_at = wl.email_sent_at := by
  unfold WorkLog.save fillDefaultTimes
  dsimp only
  repeat' split
  all_goals exact ⟨rfl, rfl, rfl⟩

/-- With no explicit end time and no `StandardWorkHours` row, no schedule
instant can be computed. -/
theorem compute_none_of_no_end (dd : Option Date) (now : Int) :
    _compute_schedule_dt dd none none now = none := by
  cases dd <;> rfl

/-- Replacing the appended row in `worklogs` touches nothing else when the
appended pk is fresh. -/
theorem replace_append_fresh (ws : List WorkLog) (wl wl2 : WorkLog)
    (hid : wl2.id = wl.id) (hfresh : ∀ w ∈ ws, w.id ≠ wl.id) :
    (ws ++ [wl]).map (fun w => if w.id = wl2.id then wl2 else w) = ws ++ [wl2] := by
  induction ws with
  | nil => simp [hid]
  | cons x xs ih =>
    simp only [List.cons_append, List.map_cons]
    rw [if_neg (by rw [hid]; exact hfresh x (List.mem_cons_self x xs))]
    rw [ih (fun w hw => hfresh w (List.mem_cons_of_mem x hw))]

/-- Demo store and request for the scheduling scenario: the rule allows
author 1, standard hours 08:00-17:00, a `schedule`-mode creation due
2025-03-10 with end time 23:59, submitted at 23:00 the same day. -/
def ruleOps : WorklogEmailSettings := ⟨true, true, true, "ops@example.com", [1]⟩

def dbSched : Db :=
  { worklogs := [], entries := [], state_changes := [], job_states := [5],
    edit_condition := none, standard_work_hours := some (28800, 61200),
    email_rule := some ruleOps, next_entry_id := 1, next_worklog_id := 5 }

def paySched : WlPayload :=
  ⟨⟨2025, 3, 10⟩, some 28800, some 86340, "", "schedule", [entryPayDemo]⟩

def envSched : Env :=
  ⟨combine ⟨2025, 3, 10⟩ 82800, combine ⟨2025, 3, 10⟩ 82800,
    combine ⟨2025, 3, 10⟩ 82800, true, true, true, true⟩

/-- C5: the schedule target is due date + explicit end time (or the
standard end time) on the Kuwait timeline, rolled forward exactly one day
when not strictly in the future of the `now` inside the computation; at
creation the work log is marked pending (`email_pending`,
`email_scheduled_at`, `email_sent_at` cleared) when the target is still in
the future at evaluation time, and the e-mail is sent immediately instead
when it is not.  Due today 23:59 at 23:00 schedules today 23:59; at
23:59:01 the target rolls to tomorrow 23:59. -/
theorem C5_schedule_target_and_pending :
    (∀ (d : Date) (et : Option Nat) (cfg : StandardHours) (now : Int) (t : Nat),
        (et = some t ∨ (et = none ∧ (get_default_work_hours cfg).2 = some t)) →
        _compute_schedule_dt (some d) et cfg now
          = some (if combine d t ≤ now then combine d t + 86400 else combine d t))
    ∧ (∀ (db : Db) (user : UserRec) (p : WlPayload) (env : Env) (wl : WorkLog)
        (r : String) (sched : Int),
        wl = mkSavedWl db user p env →
        env.txn_ok = true →
        p.send_mode = "schedule" →
        db.worklogs.any (fun w => w.wl_number = wl.wl_number) = false →
        (∀ w ∈ db.worklogs, w.id ≠ wl.id) →
        _get_email_rule db.email_rule user.id true = some r →
        _compute_schedule_dt wl.due_date wl.end_time db.standard_work_hours env.now_sched
          = some sched →
        env.now_eval < sched →
          (create_work_log db user p env).resp
              = .okFull wl.id wl.wl_number none (some sched)
          ∧ (create_work_log db user p env).db.worklogs
              = db.worklogs ++ [_mark_email_pending wl sched]
          ∧ (_mark_email_pending wl sched).email_pending = true
          ∧ (_mark_email_pending wl sched).email_scheduled_at = some sched
          ∧ (_mark_email_pending wl sched).email_sent_at = none
          ∧ (create_work_log db user p env).attempted_send = false)
    ∧ (∀ (db : Db) (user : UserRec) (p : WlPayload) (env : Env) (wl : WorkLog)
        (r : String) (sched : Int),
        wl = mkSavedWl db user p env →
        env.txn_ok = true →
        p.send_mode = "schedule" →
        db.worklogs.any (fun w => w.wl_number = wl.wl_number) = false →
        _get_email_rule db.email_rule user.id true = some r →
        _compute_schedule_dt wl.due_date wl.end_time db.standard_work_hours env.now_sched
          = some sched →
        sched ≤ env.now_eval →
          (create_work_log db user p env).attempted_send = true
          ∧ (create_work_log db user p env).resp
              = .okFull wl.id wl.wl_number
                  (send_worklog_docx_email db.email_rule
                    (wl.author.map UserRec.id |>.getD 0) true
                    env.render_ok env.smtp_ok env.send_ok)
                  none)
    ∧ _compute_schedule_dt (some ⟨2025, 3, 10⟩) (some 86340) none
        (combine ⟨2025, 3, 10⟩ 82800) = some (combine ⟨2025, 3, 10⟩ 86340)
    ∧ _compute_schedule_dt (some ⟨2025, 3, 10⟩) (some 86340) none
        (combine ⟨2025, 3, 10⟩ 86340 + 1) = some (combine ⟨2025, 3, 11⟩ 86340)
    ∧ (create_work_log dbSched leo paySched envSched).resp
        = .okFull 5 "WL-250310-Leo-Admin" none (some (combine ⟨2025, 3, 10⟩ 86340))
    ∧ (create_work_log dbSched leo paySched envSched).db.worklogs.map
        (fun w => (w.email_pending, w.email_scheduled_at, w.email_sent_at))
        = [(true, some (combine ⟨2025, 3, 10⟩ 86340), none)] := by
  refine ⟨?_, ?_, ?_, by decide, by decide, by decide, by decide⟩
  · intro d et cfg now t ht
    rcases ht with rfl | ⟨rfl, hdef⟩
    · unfold _compute_schedule_dt
      dsimp only
      split <;> simp_all
    · unfold _compute_schedule_dt
      rw [hdef]
      dsimp only
      split <;> simp_all
  · intro db user p env wl r sched hwl htxn hmode hcol hfresh hgate hcomp hfut
    unfold create_work_log
    rw [htxn]
    rw [if_neg (by decide : ¬ ((!true : Bool) = true))]
    rw [← hwl]
    dsimp only
    rw [hcol]
    rw [if_neg (by decide : ¬ ((false : Bool) = true))]
    unfold emailPhase
    rw [hmode]
    rw [if_pos rfl]
    dsimp only
    rw [hgate]
    dsimp only
    rw [hcomp]
    dsimp only
    rw [if_neg (not_le.mpr hfut)]
    refine ⟨rfl, ?_, rfl, rfl, rfl, rfl⟩
    show (db.worklogs ++ [wl]).map
        (fun w => if w.id = (_mark_email_pending wl sched).id then
          _mark_email_pending wl sched else w) = _
    exact replace_append_fresh db.worklogs wl (_mark_email_pending wl sched) rfl hfresh
  · intro db user p env wl r sched hwl htxn hmode hcol hgate hcomp hpast
    unfold create_work_log
    rw [htxn]
    rw [if_neg (by decide : ¬ ((!true : Bool) = true))]
    rw [← hwl]
    dsimp only
    rw [hcol]
    rw [if_neg (by decide : ¬ ((false : Bool) = true))]
    unfold emailPhase
    rw [hmode]
    rw [if_pos rfl]
    dsimp only
    rw [hgate]
    dsimp only
    rw [hcomp]
    dsimp only
    rw [if_pos hpast]
    cases hsend : send_worklog_docx_email db.email_rule
        (wl.author.map UserRec.id |>.getD 0) true env.render_ok env.smtp_ok env.send_ok with
    | none => exact ⟨rfl, rfl⟩
    | some rr => exact ⟨rfl, rfl⟩

/-- C5 witness: the pending-marking branch applied to the demo store. -/
theorem C5_schedule_witness :
    (create_work_log dbSched leo paySched envSched).resp
        = .okFull (mkSavedWl dbSched leo paySched envSched).id
            (mkSavedWl dbSched leo paySched envSched).wl_number none
            (some (combine ⟨2025, 3, 10⟩ 86340))
      ∧ (create_work_log dbSched leo paySched envSched).db.worklogs
        = dbSched.worklogs
            ++ [_mark_email_pending (mkSavedWl dbSched leo paySched envSched)
                  (combine ⟨2025, 3, 10⟩ 86340)] := by
  have h := C5_schedule_target_and_pending.2.1 dbSched leo paySched envSched
    (mkSavedWl dbSched leo paySched envSched) "ops@example.com"
    (combine ⟨2025, 3, 10⟩ 86340) rfl rfl rfl (by decide) (by decide)
    (by decide) (by decide) (by decide)
  exact ⟨h.1, h.2.1⟩

/-- C10: a `schedule`-mode creation that passes the e-mail rule check but
has no end time and no `StandardWorkHours` row still creates the work log
and its entries and succeeds, but computes no schedule target: nothing is
sent, nothing is scheduled, `email_pending` stays false, and the response
is the basic shape without recipient or scheduled-time fields. -/
theorem C10_no_end_time_no_schedule :
    ∀ (db : Db) (user : UserRec) (p : WlPayload) (env : Env) (wl : WorkLog)
      (r : String),
      wl = mkSavedWl db user p env →
      env.txn_ok = true →
      p.send_mode = "schedule" →
      p.end_time = none →
      db.standard_work_hours = none →
      db.worklogs.any (fun w => w.wl_number = wl.wl_number) = false →
      _get_email_rule db.email_rule user.id true = some r →
        (create_work_log db user p env).resp = .okBasic wl.id wl.wl_number
        ∧ (create_work_log db user p env).db.worklogs = db.worklogs ++ [wl]
        ∧ (create_work_log db user p env).db.entries
            = db.entries ++ buildEntries wl.id db.next_entry_id p.entries
        ∧ (create_work_log db user p env).attempted_send = false
        ∧ wl.email_pending = false
        ∧ wl.email_scheduled_at = none
        ∧ wl.email_sent_at = none := by
  intro db user p env wl r hwl htxn hmode hend hcfg hcol hgate
  have hwlend : wl.end_time = none := by
    rw [hwl]
    unfold mkSavedWl
    rw [save_end_time, hcfg]
    exact fillDefaultTimes_end_time_none _ hend
  have hcompute : _compute_schedule_dt wl.due_date wl.end_time db.standard_work_hours
      env.now_sched = none := by
    rw [hwlend, hcfg]
    exact compute_none_of_no_end wl.due_date env.now_sched
  have hemail : wl.email_pending = false ∧ wl.email_scheduled_at = none
      ∧ wl.email_sent_at = none := by
    rw [hwl]
    unfold mkSavedWl
    exact save_email_fields db.standard_work_hours _
  unfold create_work_log
  rw [htxn]
  rw [if_neg (by decide : ¬ ((!true : Bool) = true))]
  rw [← hwl]
  dsimp only
  rw [hcol]
  rw [if_neg (by decide : ¬ ((false : Bool) = true))]
  unfold emailPhase
  rw [hmode]
  rw [if_pos rfl]
  dsimp only
  rw [hgate]
  dsimp only
  rw [hcompute]
  exact ⟨rfl, rfl, rfl, rfl, hemail.1, hemail.2.1, hemail.2.2⟩

/-- C10 witness: the demo store with the standard-hours row removed and an
end-time-less payload. -/
theorem C10_no_end_time_witness :
    (create_work_log { dbSched with standard_work_hours := none } leo
        { paySched with start_time := none, end_time := none } envSched).resp
      = .okBasic (mkSavedWl { dbSched with standard_work_hours := none } leo
            { paySched with start_time := none, end_time := none } envSched).id
          (mkSavedWl { dbSched with standard_work_hours := none } leo
            { paySched with start_time := none, end_time := none } envSched).wl_number :=
  (C10_no_end_time_no_schedule { dbSched with standard_work_hours := none } leo
    { paySched with start_time := none, end_time := none } envSched _
    "ops@example.com" rfl rfl rfl rfl rfl (by decide) (by decide)).1

end StockBrain
